import Mathlib

/-!
Shallow embedding of the thirds-global scheduling core.

The repository is a TypeScript application.  The definitions below are
direct translations of the functions named in comments, working over
`Nat` minutes, `List Char` / `String` clock text, and `ℚ` for the
floating-point averages (all durations in the data are integral, so
JavaScript float arithmetic on them is exact and agrees with `ℚ`).

Clock text: the source renders minutes with
`(x) => String(Math.floor(x/60)).padStart(2,'0') + ":" + String(x%60).padStart(2,'0')`
and parses with `(t) => { const [h,m] = t.split(':').map(Number); return h*60+m; }`.
`renderNatCore` models JavaScript `String(n)` on a natural number
(decimal digits, fuel-structured so it computes in the kernel), `jsNum`
models `Number(s)` on integer-literal strings (the `NaN` outcome on
non-digit text is modelled as `0`; every call site in the claims feeds
validated `HH:MM` text, where the two coincide).
-/

/-- Decimal digit character, as produced by JavaScript `String(n)`. -/
def digitChar (d : Nat) : Char :=
  match d with
  | 0 => '0' | 1 => '1' | 2 => '2' | 3 => '3' | 4 => '4'
  | 5 => '5' | 6 => '6' | 7 => '7' | 8 => '8' | 9 => '9'
  | _ => '0'

/-- Digits of `n`, most significant first, prepended to `acc`; `fuel`
bounds the recursion so the definition is structural. -/
def renderNatCore (fuel n : Nat) (acc : List Char) : List Char :=
  match fuel with
  | 0 => acc
  | fuel + 1 =>
    let acc' := digitChar (n % 10) :: acc
    if n < 10 then acc' else renderNatCore fuel (n / 10) acc'

/-- JavaScript `String(n)` for a natural number. -/
def renderNat (n : Nat) : List Char := renderNatCore (n + 1) n []

/-- One step of decimal accumulation, as in parsing `Number(s)`. -/
def parseStep (a : Nat) (c : Char) : Nat := a * 10 + (c.toNat - 48)

/-- Decimal value of a digit string, accumulated onto `a`. -/
def parseF (a : Nat) (cs : List Char) : Nat := cs.foldl parseStep a

/-- JavaScript `Number(s)` on integer-literal text: the value of a
non-empty all-digit string, and `0` (standing for `NaN`) otherwise. -/
def jsNum (cs : List Char) : Nat :=
  if !cs.isEmpty && cs.all Char.isDigit then parseF 0 cs else 0

/-- JavaScript `s.padStart(2, '0')`. -/
def padStart2 (l : List Char) : List Char :=
  if 2 ≤ l.length then l else if l.length = 1 then '0' :: l else ['0', '0']

/-- Character list of the source's `fromMin`:
`pad(x/60) ++ ":" ++ pad(x%60)`. -/
def fromMinChars (x : Nat) : List Char :=
  padStart2 (renderNat (x / 60)) ++ ':' :: padStart2 (renderNat (x % 60))

/-- The source's `fromMin : minutes → "HH:MM"`. -/
def fromMin (x : Nat) : String := ⟨fromMinChars x⟩

/-- JavaScript `t.split(':')` on the character list of `t`. -/
def splitColon (cs : List Char) : List (List Char) :=
  match cs with
  | [] => [[]]
  | c :: rest =>
    if c = ':' then [] :: splitColon rest
    else
      match splitColon rest with
      | [] => [[c]]
      | p :: ps => (c :: p) :: ps

/-- The source's `toMin : "HH:MM" → minutes`:
`const [h,m] = t.split(':').map(Number); return h*60+m`. -/
def toMin (t : String) : Nat :=
  let parts := splitColon t.data
  jsNum (parts.getD 0 []) * 60 + jsNum (parts.getD 1 [])

theorem digitChar_isDigit (d : Nat) : (digitChar d).isDigit = true := by
  unfold digitChar; split <;> decide

theorem digitChar_ne_colon (d : Nat) : digitChar d ≠ ':' := by
  unfold digitChar; split <;> decide

theorem digitChar_toNat (d : Nat) (h : d < 10) : (digitChar d).toNat - 48 = d := by
  interval_cases d <;> decide

theorem parseStep_digitChar (a d : Nat) (h : d < 10) :
    parseStep a (digitChar d) = a * 10 + d := by
  unfold parseStep
  rw [digitChar_toNat d h]

/-- Scale factor accumulated by `renderNatCore`, with the same fuel shape. -/
def tensCore (fuel n : Nat) : Nat :=
  match fuel with
  | 0 => 1
  | fuel + 1 => if n < 10 then 10 else 10 * tensCore fuel (n / 10)

theorem parseF_renderNatCore :
    ∀ fuel n acc a, n < fuel →
      parseF a (renderNatCore fuel n acc) = parseF (a * tensCore fuel n + n) acc := by
  intro fuel
  induction fuel with
  | zero => intro n acc a h; omega
  | succ fuel ih =>
    intro n acc a h
    unfold renderNatCore tensCore
    by_cases hn : n < 10
    · simp only [hn, if_true]
      show parseF (parseStep a (digitChar (n % 10))) acc = _
      rw [parseStep_digitChar a (n % 10) (Nat.mod_lt n (by omega))]
      have : n % 10 = n := Nat.mod_eq_of_lt hn
      rw [this]
    · simp only [hn, if_false]
      have hd : n / 10 < fuel := by
        have h1 : n / 10 < n := Nat.div_lt_self (by omega) (by omega)
        omega
      rw [ih (n / 10) (digitChar (n % 10) :: acc) a hd]
      show parseF (parseStep (a * tensCore fuel (n / 10) + n / 10) (digitChar (n % 10))) acc = _
      rw [parseStep_digitChar _ (n % 10) (Nat.mod_lt n (by omega))]
      have hqr : 10 * (n / 10) + n % 10 = n := Nat.div_add_mod n 10
      have : (a * tensCore fuel (n / 10) + n / 10) * 10 + n % 10
           = a * (10 * tensCore fuel (n / 10)) + (10 * (n / 10) + n % 10) := by ring
      rw [this, hqr]

theorem renderNatCore_all_digits :
    ∀ fuel n acc, acc.all Char.isDigit = true →
      (renderNatCore fuel n acc).all Char.isDigit = true := by
  intro fuel
  induction fuel with
  | zero => intro n acc h; exact h
  | succ fuel ih =>
    intro n acc h
    unfold renderNatCore
    have hacc : (digitChar (n % 10) :: acc).all Char.isDigit = true := by
      simp [List.all_cons, digitChar_isDigit, h]
    by_cases hn : n < 10
    · simp only [hn, if_true]; exact hacc
    · simp only [hn, if_false]; exact ih (n / 10) _ hacc

theorem renderNatCore_ne_nil :
    ∀ fuel n acc, renderNatCore (fuel + 1) n acc ≠ [] := by
  intro fuel
  induction fuel with
  | zero =>
    intro n acc
    unfold renderNatCore
    by_cases hn : n < 10 <;> simp [hn, renderNatCore]
  | succ fuel ih =>
    intro n acc
    unfold renderNatCore
    by_cases hn : n < 10
    · simp [hn]
    · simp only [hn, if_false]
      exact ih (n / 10) _

theorem renderNat_all_digits (n : Nat) : (renderNat n).all Char.isDigit = true :=
  renderNatCore_all_digits (n + 1) n [] rfl

theorem renderNat_ne_nil (n : Nat) : renderNat n ≠ [] :=
  renderNatCore_ne_nil n n []

theorem parseF_renderNat (n : Nat) : parseF 0 (renderNat n) = n := by
  have h := parseF_renderNatCore (n + 1) n [] 0 (Nat.lt_succ_self n)
  simpa [renderNat, parseF] using h

theorem padStart2_all_digits (l : List Char) (h : l.all Char.isDigit = true) :
    (padStart2 l).all Char.isDigit = true := by
  unfold padStart2
  split
  · exact h
  · split <;> simp_all

theorem padStart2_ne_nil (l : List Char) : padStart2 l ≠ [] := by
  unfold padStart2
  split
  · intro hl; subst hl; simp at *
  · split <;> simp

theorem jsNum_padStart2_renderNat (n : Nat) :
    jsNum (padStart2 (renderNat n)) = n := by
  have hne := renderNat_ne_nil n
  have hdig := renderNat_all_digits n
  unfold padStart2
  by_cases hlen : 2 ≤ (renderNat n).length
  · rw [if_pos hlen]
    unfold jsNum
    rw [if_pos (by simp [hdig, List.isEmpty_iff, hne])]
    exact parseF_renderNat n
  · rw [if_neg hlen]
    by_cases h1 : (renderNat n).length = 1
    · rw [if_pos h1]
      unfold jsNum
      rw [if_pos (by simp [List.all_cons, hdig])]
      show parseF (parseStep 0 '0') (renderNat n) = n
      have h0 : parseStep 0 '0' = 0 := by decide
      rw [h0, parseF_renderNat]
    · exfalso
      have h0 : (renderNat n).length = 0 := by omega
      exact hne (List.length_eq_zero.mp h0)

theorem splitColon_no_colon :
    ∀ cs : List Char, (∀ c ∈ cs, c ≠ ':') → splitColon cs = [cs] := by
  intro cs
  induction cs with
  | nil => intro _; rfl
  | cons c rest ih =>
    intro h
    unfold splitColon
    have hc : c ≠ ':' := h c (List.mem_cons_self c rest)
    rw [if_neg hc]
    have hrest : ∀ x ∈ rest, x ≠ ':' := fun x hx => h x (List.mem_cons_of_mem c hx)
    rw [ih hrest]

theorem splitColon_append :
    ∀ a b : List Char, (∀ c ∈ a, c ≠ ':') →
      splitColon (a ++ ':' :: b) = a :: splitColon b := by
  intro a
  induction a with
  | nil =>
    intro b _
    show splitColon (':' :: b) = [] :: splitColon b
    conv_lhs => rw [splitColon]
    rw [if_pos rfl]
  | cons c rest ih =>
    intro b h
    have hc : c ≠ ':' := h c (List.mem_cons_self c rest)
    show splitColon (c :: (rest ++ ':' :: b)) = (c :: rest) :: splitColon b
    conv_lhs => rw [splitColon]
    rw [if_neg hc]
    have hrest : ∀ x ∈ rest, x ≠ ':' := fun x hx => h x (List.mem_cons_of_mem c hx)
    rw [ih b hrest]

theorem all_digits_ne_colon {l : List Char} (h : l.all Char.isDigit = true) :
    ∀ c ∈ l, c ≠ ':' := by
  intro c hc
  have hd : c.isDigit = true := by
    rw [List.all_eq_true] at h
    exact h c hc
  intro hcc
  subst hcc
  exact absurd hd (by decide)

/-- Round trip of the source's clock-text conversions: parsing a rendered
`HH:MM` string recovers the minute count, for every natural number of
minutes (including values past 24:00, rendered as e.g. `"29:00"`). -/
theorem toMin_fromMin (x : Nat) : toMin (fromMin x) = x := by
  have hH := padStart2_all_digits _ (renderNat_all_digits (x / 60))
  have hM := padStart2_all_digits _ (renderNat_all_digits (x % 60))
  have hsplit : splitColon (fromMinChars x)
      = padStart2 (renderNat (x / 60)) :: splitColon (padStart2 (renderNat (x % 60))) :=
    splitColon_append _ _ (all_digits_ne_colon hH)
  have hsplit2 : splitColon (padStart2 (renderNat (x % 60)))
      = [padStart2 (renderNat (x % 60))] :=
    splitColon_no_colon _ (all_digits_ne_colon hM)
  show jsNum ((splitColon (fromMinChars x)).getD 0 []) * 60
      + jsNum ((splitColon (fromMinChars x)).getD 1 []) = x
  rw [hsplit, hsplit2]
  show jsNum (padStart2 (renderNat (x / 60))) * 60
      + jsNum (padStart2 (renderNat (x % 60))) = x
  rw [jsNum_padStart2_renderNat, jsNum_padStart2_renderNat]
  omega

/-! ## Schedule-page data model and overlap resolvers (src/unnamed/part_006) -/

/-- A block's boundary times as `HH:MM` text (source type `TimeBlock`). -/
structure TimeBlock where
  startTime : String
  endTime : String
deriving DecidableEq, Repr

/-- The day's three blocks, as consumed by the resolvers
(`{ high: TimeBlock; medium: TimeBlock; low: TimeBlock }`). -/
structure TimesTriple where
  high : TimeBlock
  medium : TimeBlock
  low : TimeBlock
deriving DecidableEq, Repr

/-- Energy label of a block (source union `'High'|'Medium'|'Low'`). -/
inductive Energy where
  | High
  | Medium
  | Low
deriving DecidableEq, Repr

/-- The source's local `overlap = (aS,aE,bS,bE) => (aS < bE && bS < aE)`. -/
def overlapB (aS aE bS bE : Nat) : Bool :=
  decide (aS < bE) && decide (bS < aE)

/-- `hasOverlapSimple` from part_006: pairwise interval-overlap test on the
parsed minute values of the three blocks. -/
def hasOverlapSimple (times : TimesTriple) : Bool :=
  let hS := toMin times.high.startTime
  let hE := toMin times.high.endTime
  let mS := toMin times.medium.startTime
  let mE := toMin times.medium.endTime
  let lS := toMin times.low.startTime
  let lE := toMin times.low.endTime
  overlapB hS hE mS mE || overlapB hS hE lS lE || overlapB mS mE lS lE

/-- The source's local `dur = (s,e) => Math.max(1, e - s)`; `Nat`
subtraction truncates a negative JavaScript difference at `0`, which the
outer `max 1` absorbs, so the two agree on every input. -/
def durMax1 (s e : Nat) : Nat := max 1 (e - s)

/-- `autoAdjustContinuous` from part_006 (full re-chain resolution):
clamp Medium's start up to High's end keeping Medium's duration, then
clamp Low's start up to the shifted Medium end keeping Low's duration. -/
def autoAdjustContinuous (times : TimesTriple) : TimesTriple :=
  let hS := toMin times.high.startTime
  let hE := toMin times.high.endTime
  let mS0 := toMin times.medium.startTime
  let mE0 := toMin times.medium.endTime
  let lS0 := toMin times.low.startTime
  let lE0 := toMin times.low.endTime
  let mDur := durMax1 mS0 mE0
  let lDur := durMax1 lS0 lE0
  let mS : Nat := if mS0 < hE then hE else mS0
  let mE := mS + mDur
  let lS : Nat := if lS0 < mE then mE else lS0
  let lE := lS + lDur
  { high := ⟨fromMin hS, fromMin hE⟩
    medium := ⟨fromMin mS, fromMin mE⟩
    low := ⟨fromMin lS, fromMin lE⟩ }

/-- The overlap-resolution step of `handleSaveTimes` (part_006), on the
path where the user accepts the auto-adjust confirm dialog: if the three
blocks overlap they are re-chained with `autoAdjustContinuous`, otherwise
they are left untouched. -/
def resolveOverlapsOnSave (times : TimesTriple) : TimesTriple :=
  if hasOverlapSimple times then autoAdjustContinuous times else times

/-- The `res[key] = { startTime, endTime }` write at the top of
`adjustAdjacentForChange`. -/
def setChangedBlock (base : TimesTriple) (changed : Energy) (startTime endTime : String) : TimesTriple :=
  match changed with
  | .High => { base with high := ⟨startTime, endTime⟩ }
  | .Medium => { base with medium := ⟨startTime, endTime⟩ }
  | .Low => { base with low := ⟨startTime, endTime⟩ }

/-- `adjustAdjacentForChange` from part_006 (single-block edit
propagation), translated statement by statement: the mutable JavaScript
locals `mS`, `mE`, `lS`, `lE` and the staged writes into `res` become the
numbered `let` bindings below, in the source's order. -/
def adjustAdjacentForChange (base : TimesTriple) (changed : Energy)
    (startTime endTime : String) : TimesTriple :=
  let res0 := setChangedBlock base changed startTime endTime
  let hS := toMin res0.high.startTime
  let hE := toMin res0.high.endTime
  let mS0 := toMin res0.medium.startTime
  let mE0 := toMin res0.medium.endTime
  let lS0 := toMin res0.low.startTime
  let lE0 := toMin res0.low.endTime
  -- Fix overlap High↔Medium
  let mS1 : Nat := if hE > mS0 then (if changed = .High then hE else mS0) else mS0
  let res1 : TimesTriple :=
    if hE > mS0 ∧ changed ≠ .High then
      { res0 with high := ⟨res0.high.startTime, fromMin (max (hS + 1) mS0)⟩ }
    else res0
  -- Apply Medium start update
  let res2 := { res1 with medium := ⟨fromMin mS1, res1.medium.endTime⟩ }
  -- Recompute overlap after any change
  let newHE2 := toMin res2.high.endTime
  let mS2 := toMin res2.medium.startTime
  -- Ensure Medium end > start
  let mE1 : Nat := if mE0 ≤ mS2 then mS2 + 1 else mE0
  -- Fix overlap Medium↔Low
  let mE2 : Nat :=
    if mE1 > lS0 then (if changed = .Low then max (mS2 + 1) lS0 else mE1) else mE1
  let lS1 : Nat :=
    if mE1 > lS0 then
      (match changed with
       | .Medium => mE1
       | .Low => lS0
       | .High => max lS0 mE1)
    else lS0
  -- Apply results
  let res3 := { res2 with medium := ⟨res2.medium.startTime, fromMin mE2⟩,
                          low := ⟨fromMin lS1, res2.low.endTime⟩ }
  let lE1 : Nat := if lE0 ≤ lS1 then lS1 + 1 else lE0
  -- Ensure High end consistent
  { res3 with low := ⟨res3.low.startTime, fromMin lE1⟩,
              high := ⟨res3.high.startTime, fromMin newHE2⟩ }

/-- `getBlockDuration` from part_006: minute difference of the two clock
texts (the source goes through `Date`, which on `2000-01-01T HH:MM` input
is exactly the minute difference). -/
def getBlockDuration (startTime endTime : String) : Int :=
  (toMin endTime : Int) - (toMin startTime : Int)

/-- A task row as held by the schedule builder (name and minutes). -/
structure UiTask where
  name : String
  duration : Nat
deriving DecidableEq, Repr

/-- Total minutes of a task list (`tasks.reduce((sum,t)=>sum+t.duration,0)`). -/
def totalDuration (tasks : List UiTask) : Nat :=
  tasks.foldl (fun sum t => sum + t.duration) 0

/-- `validateTasks` from part_006, for the current block: the save is
blocked (returns `false`, opening the capacity popup) exactly when the
tasks' total duration exceeds the block duration. -/
def validateTasks (tasks : List UiTask) (startTime endTime : String) : Bool :=
  let blockDuration := getBlockDuration startTime endTime
  !decide ((totalDuration tasks : Int) > blockDuration)

/-- `getCurrentBlockRemaining` from part_006:
`Math.max(0, total - used)` minutes left in the block. -/
def getCurrentBlockRemaining (tasks : List UiTask) (startTime endTime : String) : Int :=
  let total := getBlockDuration startTime endTime
  let used := (totalDuration tasks : Int)
  max 0 (total - used)

/-- The quick-add duration check of part_006 (`newTaskDuration` change and
Add handlers): a new task of `v` minutes is rejected when `v` exceeds the
remaining capacity, and the error message reports `v - remaining` as the
excess; `some excess` models that rejection, `none` acceptance. -/
def quickAddExcess (tasks : List UiTask) (startTime endTime : String) (v : Nat) : Option Int :=
  let remaining := getCurrentBlockRemaining tasks startTime endTime
  if (v : Int) > remaining then some ((v : Int) - remaining) else none

/-! ## Claims about the overlap resolvers -/

/-- C1: for every three-block input with each end strictly after its
start, full re-chain resolution (`autoAdjustContinuous`) returns a triple
that is pairwise non-overlapping, keeps High unchanged, and preserves the
exact (hence at-least) pre-resolution durations of Medium and Low; the
code has no failure path at all, so in particular it never returns a
silently-overlapping triple. -/
theorem autoAdjustContinuous_sound (t : TimesTriple)
    (hH : toMin t.high.startTime < toMin t.high.endTime)
    (hM : toMin t.medium.startTime < toMin t.medium.endTime)
    (hL : toMin t.low.startTime < toMin t.low.endTime) :
    ¬(toMin (autoAdjustContinuous t).high.startTime < toMin (autoAdjustContinuous t).medium.endTime ∧
      toMin (autoAdjustContinuous t).medium.startTime < toMin (autoAdjustContinuous t).high.endTime) ∧
    ¬(toMin (autoAdjustContinuous t).high.startTime < toMin (autoAdjustContinuous t).low.endTime ∧
      toMin (autoAdjustContinuous t).low.startTime < toMin (autoAdjustContinuous t).high.endTime) ∧
    ¬(toMin (autoAdjustContinuous t).medium.startTime < toMin (autoAdjustContinuous t).low.endTime ∧
      toMin (autoAdjustContinuous t).low.startTime < toMin (autoAdjustContinuous t).medium.endTime) ∧
    toMin (autoAdjustContinuous t).high.startTime = toMin t.high.startTime ∧
    toMin (autoAdjustContinuous t).high.endTime = toMin t.high.endTime ∧
    toMin (autoAdjustContinuous t).medium.endTime - toMin (autoAdjustContinuous t).medium.startTime
      = toMin t.medium.endTime - toMin t.medium.startTime ∧
    toMin (autoAdjustContinuous t).low.endTime - toMin (autoAdjustContinuous t).low.startTime
      = toMin t.low.endTime - toMin t.low.startTime := by
  simp only [autoAdjustContinuous, durMax1, toMin_fromMin]
  refine ⟨?_, ?_, ?_, ?_, ?_, ?_, ?_⟩ <;> first | trivial | (split_ifs <;> omega)

/-- Witness for `autoAdjustContinuous_sound` at the overlapping triple
High 06:00–23:00, Medium 12:00–18:00, Low 18:00–22:00. -/
theorem autoAdjustContinuous_sound_witness :
    let t : TimesTriple := ⟨⟨"06:00", "23:00"⟩, ⟨"12:00", "18:00"⟩, ⟨"18:00", "22:00"⟩⟩
    ¬(toMin (autoAdjustContinuous t).high.startTime < toMin (autoAdjustContinuous t).medium.endTime ∧
      toMin (autoAdjustContinuous t).medium.startTime < toMin (autoAdjustContinuous t).high.endTime) ∧
    ¬(toMin (autoAdjustContinuous t).high.startTime < toMin (autoAdjustContinuous t).low.endTime ∧
      toMin (autoAdjustContinuous t).low.startTime < toMin (autoAdjustContinuous t).high.endTime) ∧
    ¬(toMin (autoAdjustContinuous t).medium.startTime < toMin (autoAdjustContinuous t).low.endTime ∧
      toMin (autoAdjustContinuous t).low.startTime < toMin (autoAdjustContinuous t).medium.endTime) ∧
    toMin (autoAdjustContinuous t).high.startTime = toMin t.high.startTime ∧
    toMin (autoAdjustContinuous t).high.endTime = toMin t.high.endTime ∧
    toMin (autoAdjustContinuous t).medium.endTime - toMin (autoAdjustContinuous t).medium.startTime
      = toMin t.medium.endTime - toMin t.medium.startTime ∧
    toMin (autoAdjustContinuous t).low.endTime - toMin (autoAdjustContinuous t).low.startTime
      = toMin t.low.endTime - toMin t.low.startTime :=
  autoAdjustContinuous_sound ⟨⟨"06:00", "23:00"⟩, ⟨"12:00", "18:00"⟩, ⟨"18:00", "22:00"⟩⟩
    (by decide) (by decide) (by decide)

/-- C6: the save-step Overlap Resolver leaves a triple of pairwise
non-overlapping blocks (in any chronological order) unchanged: the
`hasOverlapSimple` guard is false, so `autoAdjustContinuous` is never
entered. -/
theorem resolveOverlapsOnSave_id_of_disjoint (t : TimesTriple)
    (hHM : ¬(toMin t.high.startTime < toMin t.medium.endTime ∧
             toMin t.medium.startTime < toMin t.high.endTime))
    (hHL : ¬(toMin t.high.startTime < toMin t.low.endTime ∧
             toMin t.low.startTime < toMin t.high.endTime))
    (hML : ¬(toMin t.medium.startTime < toMin t.low.endTime ∧
             toMin t.low.startTime < toMin t.medium.endTime)) :
    resolveOverlapsOnSave t = t := by
  unfold resolveOverlapsOnSave
  have h : hasOverlapSimple t = false := by
    unfold hasOverlapSimple overlapB
    simp only [Bool.or_eq_false_iff, Bool.and_eq_false_iff, decide_eq_false_iff_not]
    refine ⟨⟨?_, ?_⟩, ?_⟩ <;> tauto
  rw [h]
  simp

/-- Witness for `resolveOverlapsOnSave_id_of_disjoint`: a chronologically
reversed but disjoint layout Low 06:00–08:00, Medium 08:00–10:00,
High 10:00–12:00 is returned unchanged. -/
theorem resolveOverlapsOnSave_id_of_disjoint_witness :
    resolveOverlapsOnSave ⟨⟨"10:00", "12:00"⟩, ⟨"08:00", "10:00"⟩, ⟨"06:00", "08:00"⟩⟩
      = ⟨⟨"10:00", "12:00"⟩, ⟨"08:00", "10:00"⟩, ⟨"06:00", "08:00"⟩⟩ :=
  resolveOverlapsOnSave_id_of_disjoint
    ⟨⟨"10:00", "12:00"⟩, ⟨"08:00", "10:00"⟩, ⟨"06:00", "08:00"⟩⟩
    (by decide) (by decide) (by decide)

/-- C10: `autoAdjustContinuous` does not reduce shifted boundaries modulo
1440: on High 06:00–23:00, Medium 12:00–18:00, Low 18:00–22:00 (all valid,
non-wrapping, within one day) the returned Medium and Low boundaries pass
midnight — Medium ends at minute 1740 rendered `"29:00"`, Low at minute
1980 rendered `"33:00"`, with hour fields 29 and 33 ≥ 24, outside
`[0, 1440)`. -/
theorem autoAdjustContinuous_exceeds_midnight :
    (toMin ("06:00") < toMin ("23:00") ∧ toMin ("23:00") < 1440) ∧
    (toMin ("12:00") < toMin ("18:00") ∧ toMin ("18:00") < 1440) ∧
    (toMin ("18:00") < toMin ("22:00") ∧ toMin ("22:00") < 1440) ∧
    autoAdjustContinuous ⟨⟨"06:00", "23:00"⟩, ⟨"12:00", "18:00"⟩, ⟨"18:00", "22:00"⟩⟩
      = ⟨⟨"06:00", "23:00"⟩, ⟨"23:00", "29:00"⟩, ⟨"29:00", "33:00"⟩⟩ ∧
    toMin ("29:00") = 1740 ∧ 1440 < 1740 ∧
    toMin ("33:00") = 1980 ∧ 1440 < 1980 ∧
    jsNum ((splitColon ("29:00").data).getD 0 []) = 29 ∧
    jsNum ((splitColon ("33:00").data).getD 0 []) = 33 := by
  decide

/-- C2 counterexample: editing Medium of the disjoint day
High 09:00–12:00, Medium 12:00–14:00, Low 14:00–16:00 to 10:00–14:00
makes its start precede High's end; the collision could be resolved by
modifying the edited block alone, yet `adjustAdjacentForChange` keeps the
edited Medium exactly as entered and instead rewrites the un-edited
High block's end from 12:00 to 10:00 — the opposite of the claimed
behaviour. -/
theorem adjustAdjacentForChange_mutates_unedited_neighbor :
    toMin ("10:00") < toMin ("12:00") ∧
    (adjustAdjacentForChange ⟨⟨"09:00", "12:00"⟩, ⟨"12:00", "14:00"⟩, ⟨"14:00", "16:00"⟩⟩
        .Medium ("10:00") ("14:00")).high
      ≠ (⟨"09:00", "12:00"⟩ : TimeBlock) ∧
    (adjustAdjacentForChange ⟨⟨"09:00", "12:00"⟩, ⟨"12:00", "14:00"⟩, ⟨"14:00", "16:00"⟩⟩
        .Medium ("10:00") ("14:00")).high.endTime = "10:00" ∧
    (adjustAdjacentForChange ⟨⟨"09:00", "12:00"⟩, ⟨"12:00", "14:00"⟩, ⟨"14:00", "16:00"⟩⟩
        .Medium ("10:00") ("14:00")).medium
      = (⟨"10:00", "14:00"⟩ : TimeBlock) := by
  decide

/-- C2 amended: in single-block edit propagation, when the edited block's
new start precedes the previous block's end, `adjustAdjacentForChange`
keeps the edited block's entered boundaries (re-rendered in canonical
`HH:MM` form) and instead pulls the PREVIOUS, un-edited block's end back
to the edited start, floored at one minute after that block's start — for
an edited Medium the mutated block is High, for an edited Low (on a day
whose High and Medium do not collide) it is Medium. -/
theorem adjustAdjacentForChange_prev_end_clamped (base : TimesTriple) (s e : String) :
    (toMin s < toMin e → toMin s < toMin base.high.endTime →
      (adjustAdjacentForChange base .Medium s e).high.startTime = base.high.startTime ∧
      (adjustAdjacentForChange base .Medium s e).high.endTime
        = fromMin (max (toMin base.high.startTime + 1) (toMin s)) ∧
      (adjustAdjacentForChange base .Medium s e).medium.startTime = fromMin (toMin s) ∧
      (adjustAdjacentForChange base .Medium s e).medium.endTime = fromMin (toMin e)) ∧
    (toMin s < toMin e →
      toMin base.high.endTime ≤ toMin base.medium.startTime →
      toMin base.medium.startTime < toMin base.medium.endTime →
      toMin s < toMin base.medium.endTime →
      (adjustAdjacentForChange base .Low s e).high.startTime = base.high.startTime ∧
      (adjustAdjacentForChange base .Low s e).high.endTime
        = fromMin (toMin base.high.endTime) ∧
      (adjustAdjacentForChange base .Low s e).medium.startTime
        = fromMin (toMin base.medium.startTime) ∧
      (adjustAdjacentForChange base .Low s e).medium.endTime
        = fromMin (max (toMin base.medium.startTime + 1) (toMin s)) ∧
      (adjustAdjacentForChange base .Low s e).low.startTime = fromMin (toMin s) ∧
      (adjustAdjacentForChange base .Low s e).low.endTime = fromMin (toMin e)) := by
  constructor
  · intro hse hcol
    simp only [adjustAdjacentForChange, setChangedBlock, toMin_fromMin]
    split_ifs <;> simp_all [toMin_fromMin] <;> omega
  · intro hse hHM hMvalid hcol
    simp only [adjustAdjacentForChange, setChangedBlock, toMin_fromMin]
    split_ifs <;> simp_all [toMin_fromMin] <;> omega

/-- Witness for `adjustAdjacentForChange_prev_end_clamped` at the
concrete day High 09:00–12:00, Medium 12:00–14:00, Low 14:00–16:00 with
Medium edited to 10:00–14:00. -/
theorem adjustAdjacentForChange_prev_end_clamped_witness :
    (adjustAdjacentForChange ⟨⟨"09:00", "12:00"⟩, ⟨"12:00", "14:00"⟩, ⟨"14:00", "16:00"⟩⟩
        .Medium ("10:00") ("14:00")).high.startTime = "09:00" ∧
    (adjustAdjacentForChange ⟨⟨"09:00", "12:00"⟩, ⟨"12:00", "14:00"⟩, ⟨"14:00", "16:00"⟩⟩
        .Medium ("10:00") ("14:00")).high.endTime
      = fromMin (max (toMin ("09:00") + 1) (toMin ("10:00"))) ∧
    (adjustAdjacentForChange ⟨⟨"09:00", "12:00"⟩, ⟨"12:00", "14:00"⟩, ⟨"14:00", "16:00"⟩⟩
        .Medium ("10:00") ("14:00")).medium.startTime = fromMin (toMin ("10:00")) ∧
    (adjustAdjacentForChange ⟨⟨"09:00", "12:00"⟩, ⟨"12:00", "14:00"⟩, ⟨"14:00", "16:00"⟩⟩
        .Medium ("10:00") ("14:00")).medium.endTime = fromMin (toMin ("14:00")) :=
  (adjustAdjacentForChange_prev_end_clamped
      ⟨⟨"09:00", "12:00"⟩, ⟨"12:00", "14:00"⟩, ⟨"14:00", "16:00"⟩⟩
      ("10:00") ("14:00")).1 (by decide) (by decide)

/-! ## Completion-velocity analytics (src/unnamed/part_002, fetchUserDataSummary) -/

/-- A task row as seen by the analytics join (`tasks(status, duration_minutes)`). -/
structure SummaryTask where
  status : String
  duration_minutes : Nat
deriving DecidableEq, Repr

/-- A session row joined with its template's `start_time`
(`session_templates?.start_time`, absent when the join is empty). -/
structure VelSession where
  start_time : Option String
  tasks : List SummaryTask
deriving DecidableEq, Repr

/-- The source's block-start hour of a session:
`parseInt((session.session_templates?.start_time || '0:0').split(':')[0], 10) || 0`. -/
def startHour (session : VelSession) : Nat :=
  jsNum ((splitColon (session.start_time.getD ("0:0")).data).getD 0 [])

/-- `tasks.filter(t => t.status === 'completed')`. -/
def completedOf (session : VelSession) : List SummaryTask :=
  session.tasks.filter (fun t => t.status == "completed")

/-- Accumulated `byHourMap[h].completed` of the source: completed-task
count over the sessions whose template-start hour is `h`. -/
def hourCompleted (sessions : List VelSession) (h : Nat) : Nat :=
  sessions.foldl
    (fun acc s => if startHour s = h then acc + (completedOf s).length else acc) 0

/-- Accumulated `byHourMap[h].totalDuration` of the source: summed
`duration_minutes` of completed tasks at template-start hour `h`. -/
def hourTotalDuration (sessions : List VelSession) (h : Nat) : Nat :=
  sessions.foldl
    (fun acc s =>
      if startHour s = h then acc + ((completedOf s).map (·.duration_minutes)).sum else acc) 0

/-- One entry of the source's `byHour` array (`HourlyStat`). -/
structure HourRow where
  hour : Nat
  completed : Nat
  avgDuration : ℚ
deriving DecidableEq, Repr

/-- The source's `byHour = Array.from({length: 24}, (_, h) => ...)`:
24 rows, one per hour of day, with average `totalDuration / completed`
when there are completions and `0` otherwise. -/
def byHourOf (sessions : List VelSession) : List HourRow :=
  (List.range 24).map (fun h =>
    let completed := hourCompleted sessions h
    let total := hourTotalDuration sessions h
    ⟨h, completed, if 0 < completed then (total : ℚ) / (completed : ℚ) else 0⟩)

/-- Stable insertion of `x` after every element `y` with `le y x`,
matching where a stable comparator sort places equal elements. -/
def jsInsert (le : α → α → Bool) (x : α) : List α → List α
  | [] => [x]
  | y :: ys => if le y x then y :: jsInsert le x ys else x :: y :: ys

/-- JavaScript `Array.prototype.sort(cmp)` for a consistent comparator:
stable sort by the boolean relation `le a b ↔ cmp(a,b) ≤ 0`. -/
def jsSort (le : α → α → Bool) (l : List α) : List α :=
  l.foldl (fun acc x => jsInsert le x acc) []

/-- The derived scalars of `completionVelocity` in `UserDataSummary`. -/
structure CompletionVelocity where
  byHour : List HourRow
  fastestHour : Option Nat
  fastestAvg : Option ℚ
  highestThroughputHour : Option Nat
deriving DecidableEq, Repr

/-- The completion-velocity aggregation of `fetchUserDataSummary`:
`eligible = byHour.filter(h => h.completed >= 3).sort((a,b) => a.avgDuration - b.avgDuration)`,
`fastestHour = eligible[0]?.hour`, `fastestAvg = eligible[0]?.avgDuration`,
`highestThroughputHour = byHour.slice().sort((a,b) => b.completed - a.completed)[0]?.hour`. -/
def completionVelocity (sessions : List VelSession) : CompletionVelocity :=
  let byHourArr := byHourOf sessions
  let eligible :=
    jsSort (fun a b => decide (a.avgDuration ≤ b.avgDuration))
      (byHourArr.filter (fun h => 3 ≤ h.completed))
  let fastestHour := eligible.head?.map (·.hour)
  let fastestAvg := eligible.head?.map (·.avgDuration)
  let highestThroughputHour :=
    (jsSort (fun a b => decide (b.completed ≤ a.completed)) byHourArr).head?.map (·.hour)
  ⟨byHourArr, fastestHour, fastestAvg, highestThroughputHour⟩

theorem mem_jsInsert (le : α → α → Bool) (x z : α) :
    ∀ l : List α, z ∈ jsInsert le x l ↔ z = x ∨ z ∈ l := by
  intro l
  induction l with
  | nil => simp [jsInsert]
  | cons y ys ih =>
    unfold jsInsert
    split_ifs
    · simp only [List.mem_cons, ih]
      tauto
    · simp only [List.mem_cons]

theorem length_jsInsert (le : α → α → Bool) (x : α) :
    ∀ l : List α, (jsInsert le x l).length = l.length + 1 := by
  intro l
  induction l with
  | nil => rfl
  | cons y ys ih =>
    unfold jsInsert
    split_ifs <;> simp [ih]

theorem mem_jsSort_foldl (le : α → α → Bool) :
    ∀ (l acc : List α) (z : α),
      z ∈ l.foldl (fun acc x => jsInsert le x acc) acc ↔ z ∈ l ∨ z ∈ acc := by
  intro l
  induction l with
  | nil => simp
  | cons x xs ih =>
    intro acc z
    show z ∈ xs.foldl (fun acc x => jsInsert le x acc) (jsInsert le x acc) ↔ _
    rw [ih (jsInsert le x acc) z, mem_jsInsert]
    simp only [List.mem_cons]
    tauto

theorem mem_jsSort (le : α → α → Bool) (l : List α) (z : α) :
    z ∈ jsSort le l ↔ z ∈ l := by
  unfold jsSort
  rw [mem_jsSort_foldl]
  simp

theorem length_jsSort_foldl (le : α → α → Bool) :
    ∀ (l acc : List α),
      (l.foldl (fun acc x => jsInsert le x acc) acc).length = l.length + acc.length := by
  intro l
  induction l with
  | nil => simp
  | cons x xs ih =>
    intro acc
    show (xs.foldl (fun acc x => jsInsert le x acc) (jsInsert le x acc)).length = _
    rw [ih (jsInsert le x acc), length_jsInsert]
    simp
    omega

theorem jsSort_eq_nil_iff (le : α → α → Bool) (l : List α) :
    jsSort le l = [] ↔ l = [] := by
  constructor
  · intro h
    have hl : (jsSort le l).length = 0 := by rw [h]; rfl
    unfold jsSort at hl
    rw [length_jsSort_foldl] at hl
    simp at hl
    exact hl
  · intro h
    subst h
    rfl

theorem pairwise_jsInsert (le : α → α → Bool)
    (htot : ∀ a b, le a b = true ∨ le b a = true)
    (htrans : ∀ a b c, le a b = true → le b c = true → le a c = true)
    (x : α) :
    ∀ l : List α, l.Pairwise (fun a b => le a b = true) →
      (jsInsert le x l).Pairwise (fun a b => le a b = true) := by
  intro l
  induction l with
  | nil => intro _; simp [jsInsert]
  | cons y ys ih =>
    intro h
    rw [List.pairwise_cons] at h
    obtain ⟨hy, hys⟩ := h
    unfold jsInsert
    split_ifs with hle
    · rw [List.pairwise_cons]
      refine ⟨?_, ih hys⟩
      intro z hz
      rw [mem_jsInsert] at hz
      rcases hz with rfl | hz
      · exact hle
      · exact hy z hz
    · have hxy : le x y = true := by
        rcases htot x y with h1 | h1
        · exact h1
        · exact absurd h1 hle
      rw [List.pairwise_cons]
      refine ⟨?_, List.pairwise_cons.mpr ⟨hy, hys⟩⟩
      intro z hz
      rcases List.mem_cons.mp hz with rfl | hz
      · exact hxy
      · exact htrans x y z hxy (hy z hz)

theorem pairwise_jsSort_foldl (le : α → α → Bool)
    (htot : ∀ a b, le a b = true ∨ le b a = true)
    (htrans : ∀ a b c, le a b = true → le b c = true → le a c = true) :
    ∀ (l acc : List α), acc.Pairwise (fun a b => le a b = true) →
      (l.foldl (fun acc x => jsInsert le x acc) acc).Pairwise (fun a b => le a b = true) := by
  intro l
  induction l with
  | nil => intro acc h; exact h
  | cons x xs ih =>
    intro acc h
    exact ih (jsInsert le x acc) (pairwise_jsInsert le htot htrans x acc h)

theorem pairwise_jsSort (le : α → α → Bool)
    (htot : ∀ a b, le a b = true ∨ le b a = true)
    (htrans : ∀ a b c, le a b = true → le b c = true → le a c = true)
    (l : List α) :
    (jsSort le l).Pairwise (fun a b => le a b = true) :=
  pairwise_jsSort_foldl le htot htrans l [] List.Pairwise.nil

/-- The first element of a consistently sorted list is `le`-below every
member of the list. -/
theorem jsSort_head_min (le : α → α → Bool)
    (htot : ∀ a b, le a b = true ∨ le b a = true)
    (htrans : ∀ a b c, le a b = true → le b c = true → le a c = true)
    (l : List α) (r : α) (h : (jsSort le l).head? = some r) :
    ∀ z ∈ l, le r z = true := by
  intro z hz
  have hmem : z ∈ jsSort le l := (mem_jsSort le l z).mpr hz
  have hp := pairwise_jsSort le htot htrans l
  cases hs : jsSort le l with
  | nil => rw [hs] at hmem; exact absurd hmem (List.not_mem_nil z)
  | cons a rest =>
    rw [hs] at h hp hmem
    simp only [List.head?_cons, Option.some_inj] at h
    subst h
    rw [List.pairwise_cons] at hp
    rcases List.mem_cons.mp hmem with rfl | hmem
    · rcases htot z z with h1 | h1 <;> exact h1
    · exact hp.1 z hmem

/-- Helper: the rows of `byHourOf` are exactly the per-hour stats for
hours `0 ≤ h < 24`. -/
theorem mem_byHourOf (sessions : List VelSession) (r : HourRow) :
    r ∈ byHourOf sessions ↔
      ∃ h < 24, r = ⟨h, hourCompleted sessions h,
        if 0 < hourCompleted sessions h
        then (hourTotalDuration sessions h : ℚ) / (hourCompleted sessions h : ℚ) else 0⟩ := by
  unfold byHourOf
  simp only [List.mem_map, List.mem_range]
  constructor
  · rintro ⟨h, hh, rfl⟩
    exact ⟨h, hh, rfl⟩
  · rintro ⟨h, hh, rfl⟩
    exact ⟨h, hh, rfl⟩

/-- C4: the analyzer's `fastestHour` is precisely the minimum-sample-gated
minimiser: it is `none` exactly when no hour of day has at least 3
completed tasks, and when it is `some h` the hour `h` meets the gate and
its average `total_duration_minutes / completed_count` is least among all
hours meeting the gate — hours below the gate are not consulted at all. -/
theorem completionVelocity_fastestHour_spec (sessions : List VelSession) :
    ((completionVelocity sessions).fastestHour = none ↔
      ∀ h < 24, hourCompleted sessions h < 3) ∧
    (∀ h, (completionVelocity sessions).fastestHour = some h →
      h < 24 ∧ 3 ≤ hourCompleted sessions h ∧
      ∀ h' < 24, 3 ≤ hourCompleted sessions h' →
        (hourTotalDuration sessions h : ℚ) / (hourCompleted sessions h : ℚ)
          ≤ (hourTotalDuration sessions h' : ℚ) / (hourCompleted sessions h' : ℚ)) := by
  have htot : ∀ a b : HourRow,
      (fun a b : HourRow => decide (a.avgDuration ≤ b.avgDuration)) a b = true ∨
      (fun a b : HourRow => decide (a.avgDuration ≤ b.avgDuration)) b a = true := by
    intro a b
    simp only [decide_eq_true_eq]
    exact le_total _ _
  have htrans : ∀ a b c : HourRow,
      (fun a b : HourRow => decide (a.avgDuration ≤ b.avgDuration)) a b = true →
      (fun a b : HourRow => decide (a.avgDuration ≤ b.avgDuration)) b c = true →
      (fun a b : HourRow => decide (a.avgDuration ≤ b.avgDuration)) a c = true := by
    intro a b c
    simp only [decide_eq_true_eq]
    exact le_trans
  constructor
  · show ((jsSort _ ((byHourOf sessions).filter _)).head?.map (·.hour) = none ↔ _)
    rw [Option.map_eq_none']
    constructor
    · intro hnone h hh
      have hnil : jsSort (fun a b : HourRow => decide (a.avgDuration ≤ b.avgDuration))
          ((byHourOf sessions).filter (fun r => 3 ≤ r.completed)) = [] := by
        cases hs : jsSort (fun a b : HourRow => decide (a.avgDuration ≤ b.avgDuration))
            ((byHourOf sessions).filter (fun r => 3 ≤ r.completed)) with
        | nil => rfl
        | cons a rest => rw [hs] at hnone; simp at hnone
      have hfil := (jsSort_eq_nil_iff _ _).mp hnil
      rw [List.filter_eq_nil_iff] at hfil
      have hr : (⟨h, hourCompleted sessions h,
          if 0 < hourCompleted sessions h
          then (hourTotalDuration sessions h : ℚ) / (hourCompleted sessions h : ℚ)
          else 0⟩ : HourRow) ∈ byHourOf sessions :=
        (mem_byHourOf sessions _).mpr ⟨h, hh, rfl⟩
      have := hfil _ hr
      simp at this
      omega
    · intro hall
      have hfil : (byHourOf sessions).filter (fun r => 3 ≤ r.completed) = [] := by
        rw [List.filter_eq_nil_iff]
        intro r hr
        obtain ⟨h, hh, rfl⟩ := (mem_byHourOf sessions r).mp hr
        have := hall h hh
        simp
        omega
      rw [hfil]
      rfl
  · intro h hsome
    have hsome' : (jsSort (fun a b : HourRow => decide (a.avgDuration ≤ b.avgDuration))
        ((byHourOf sessions).filter (fun r => 3 ≤ r.completed))).head?.map (·.hour)
        = some h := hsome
    rw [Option.map_eq_some'] at hsome'
    obtain ⟨r, hhead, hhour⟩ := hsome'
    have hrmem : r ∈ (byHourOf sessions).filter (fun r => 3 ≤ r.completed) := by
      have : r ∈ jsSort (fun a b : HourRow => decide (a.avgDuration ≤ b.avgDuration))
          ((byHourOf sessions).filter (fun r => 3 ≤ r.completed)) := by
        cases hs : jsSort (fun a b : HourRow => decide (a.avgDuration ≤ b.avgDuration))
            ((byHourOf sessions).filter (fun r => 3 ≤ r.completed)) with
        | nil => rw [hs] at hhead; simp at hhead
        | cons a rest =>
          rw [hs] at hhead
          simp only [List.head?_cons, Option.some_inj] at hhead
          subst hhead
          exact List.mem_cons_self a rest
      exact (mem_jsSort _ _ _).mp this
    rw [List.mem_filter] at hrmem
    obtain ⟨hrby, hrc⟩ := hrmem
    simp only [decide_eq_true_eq] at hrc
    obtain ⟨h0, hh0, hreq⟩ := (mem_byHourOf sessions r).mp hrby
    have hhour0 : h0 = h := by rw [hreq] at hhour; exact hhour
    subst hhour0
    have hcomp : hourCompleted sessions h0 = r.completed := by rw [hreq]
    refine ⟨hh0, by omega, ?_⟩
    intro h' hh' hge'
    have hr'mem : (⟨h', hourCompleted sessions h',
        if 0 < hourCompleted sessions h'
        then (hourTotalDuration sessions h' : ℚ) / (hourCompleted sessions h' : ℚ)
        else 0⟩ : HourRow) ∈ (byHourOf sessions).filter (fun r => 3 ≤ r.completed) := by
      rw [List.mem_filter]
      refine ⟨(mem_byHourOf sessions _).mpr ⟨h', hh', rfl⟩, ?_⟩
      simp
      omega
    have hle := jsSort_head_min _ htot htrans _ r hhead _ hr'mem
    simp only [decide_eq_true_eq] at hle
    have havg : r.avgDuration
        = (hourTotalDuration sessions h0 : ℚ) / (hourCompleted sessions h0 : ℚ) := by
      rw [hreq]
      simp only []
      rw [if_pos (by omega)]
    rw [havg] at hle
    rw [if_pos (by omega)] at hle
    exact hle

/-- The synthetic history of C3: 3 completed tasks of 10 minutes in a
block starting at hour 9, and 2 completed tasks of 5 minutes in a block
starting at hour 14. -/
def c3Sessions : List VelSession :=
  [⟨some ("09:00"), [⟨"completed", 10⟩, ⟨"completed", 10⟩, ⟨"completed", 10⟩]⟩,
   ⟨some ("14:00"), [⟨"completed", 5⟩, ⟨"completed", 5⟩]⟩]

/-- C3 counterexample: on the claimed synthetic history, `fastestHour` is
NOT undefined — hour 9 has exactly 3 completed tasks, which meets the
`completed >= 3` gate, so the aggregation picks it. -/
theorem completionVelocity_c3_counterexample :
    hourCompleted c3Sessions 9 = 3 ∧ hourCompleted c3Sessions 14 = 2 ∧
    (completionVelocity c3Sessions).fastestHour ≠ none := by
  decide

/-- C3 amended: on that history `fastestHour = 9` (hour 9 meets the
3-sample gate; hour 14, with only 2 samples, is excluded even though its
average 5 is lower than hour 9's average 10) and
`highestThroughputHour = 9`. -/
theorem completionVelocity_c3_amended :
    (completionVelocity c3Sessions).fastestHour = some 9 ∧
    (completionVelocity c3Sessions).highestThroughputHour = some 9 ∧
    (hourTotalDuration c3Sessions 14 : ℚ) / (hourCompleted c3Sessions 14 : ℚ) = 5 ∧
    (hourTotalDuration c3Sessions 9 : ℚ) / (hourCompleted c3Sessions 9 : ℚ) = 10 := by
  refine ⟨by decide, by decide, ?_, ?_⟩
  · have h1 : hourTotalDuration c3Sessions 14 = 10 := by decide
    have h2 : hourCompleted c3Sessions 14 = 2 := by decide
    rw [h1, h2]
    norm_num
  · have h1 : hourTotalDuration c3Sessions 9 = 30 := by decide
    have h2 : hourCompleted c3Sessions 9 = 3 := by decide
    rw [h1, h2]
    norm_num

/-- Witness for `completionVelocity_fastestHour_spec`, instantiated on the
concrete history `c3Sessions`, where the gated minimiser is hour 9. -/
theorem completionVelocity_fastestHour_spec_witness :
    9 < 24 ∧ 3 ≤ hourCompleted c3Sessions 9 :=
  have h := (completionVelocity_fastestHour_spec c3Sessions).2 9 (by decide)
  ⟨h.1, h.2.1⟩

/-! ## User data summary, proposal generator, rule-based fallback (part_002) -/

/-- `{ count, avgDuration }` of `energyLevelPatterns`. -/
structure CountAvg where
  count : Nat
  avgDuration : ℚ
deriving DecidableEq, Repr

/-- `energyLevelPatterns` of `UserDataSummary`. -/
structure EnergyLevelPatterns where
  high : CountAvg
  medium : CountAvg
  low : CountAvg
deriving DecidableEq, Repr

/-- `{ sessions, avgDuration }` of `timeOfDayPatterns`. -/
structure SessAvg where
  sessions : Nat
  avgDuration : ℚ
deriving DecidableEq, Repr

/-- `timeOfDayPatterns` of `UserDataSummary`. -/
structure TimeOfDayPatterns where
  morning : SessAvg
  afternoon : SessAvg
  night : SessAvg
deriving DecidableEq, Repr

/-- `recentTrends` of `UserDataSummary`. -/
structure RecentTrends where
  lastWeekSessions : Nat
  lastWeekFocusTime : ℚ
  consistencyScore : ℚ
deriving DecidableEq, Repr

/-- `scheduleData` of `UserDataSummary`. -/
structure ScheduleData where
  wakeTime : Option String
  sleepTime : Option String
  hasSchedule : Bool
deriving DecidableEq, Repr

/-- A proposal's target window `{ start, end }`; the source field `end`
is renamed `stop` because `end` is a Lean keyword. -/
structure TargetWindow where
  start : String
  stop : String
deriving DecidableEq, Repr

/-- `UserDataSummary` as assembled by `fetchUserDataSummary`. -/
structure UserDataSummary where
  totalSessions : Nat
  totalFocusTime : ℚ
  averageSessionDuration : ℚ
  completionRate : ℚ
  energyLevelPatterns : EnergyLevelPatterns
  timeOfDayPatterns : TimeOfDayPatterns
  recentTrends : RecentTrends
  scheduleData : ScheduleData
  completionVelocity : CompletionVelocity
  highBlock : Option TargetWindow
deriving DecidableEq, Repr

/-- The `Proposal` type of the insights route. -/
structure Proposal where
  type : String
  target : TargetWindow
  rationale : String
deriving DecidableEq, Repr

/-- The source's `pad = (n) => String(n).padStart(2, '0')`. -/
def padHH (n : Nat) : String := ⟨padStart2 (renderNat n)⟩

/-- JavaScript `String(n)` as a Lean `String` (used by the unpadded
template interpolation in the motivation fallback). -/
def renderNatStr (n : Nat) : String := ⟨renderNat n⟩

/-- `generateScheduleProposals` from part_002: one `shift_high_block`
proposal on the window `[fastestHour - 1, fastestHour + 1]` clamped to
`[0, 23]` when `fastestHour` is defined, no proposal otherwise.  (For a
`Nat` hour, `Math.max(0, fastestHour - 1)` and truncated subtraction
agree.) -/
def generateScheduleProposals (userData : UserDataSummary) : List Proposal :=
  match userData.completionVelocity.fastestHour with
  | some fastestHour =>
    let startH := max 0 (fastestHour - 1)
    let endH := min 23 (fastestHour + 1)
    let start := padHH startH ++ ":00"
    let stop := padHH endH ++ ":00"
    [{ type := "shift_high_block"
       target := ⟨start, stop⟩
       rationale := "Your fastest completion window is around " ++ padHH fastestHour
         ++ ":00; shifting High energy block to " ++ start ++ "–" ++ stop
         ++ " may improve throughput." }]
  | none => []

/-- C5: the Proposal Generator emits exactly one `shift_high_block`
proposal with window `[fastestHour - 1, fastestHour + 1]` clamped to
`[0, 23]` and rendered as `HH:00` boundaries (for `fastestHour = 9` that
is 08:00–10:00), with a rationale naming the fastest hour and the window;
with `fastestHour` undefined it emits nothing. -/
theorem generateScheduleProposals_spec (ud : UserDataSummary) :
    (ud.completionVelocity.fastestHour = none → generateScheduleProposals ud = []) ∧
    (∀ f, ud.completionVelocity.fastestHour = some f →
      generateScheduleProposals ud
        = [⟨"shift_high_block",
            ⟨padHH (max 0 (f - 1)) ++ ":00", padHH (min 23 (f + 1)) ++ ":00"⟩,
            "Your fastest completion window is around " ++ padHH f
              ++ ":00; shifting High energy block to " ++ (padHH (max 0 (f - 1)) ++ ":00")
              ++ "–" ++ (padHH (min 23 (f + 1)) ++ ":00")
              ++ " may improve throughput."⟩]) ∧
    (ud.completionVelocity.fastestHour = some 9 →
      (generateScheduleProposals ud).map (fun p => (p.type, p.target))
        = [("shift_high_block", ⟨"08:00", "10:00"⟩)]) := by
  refine ⟨?_, ?_, ?_⟩
  · intro h
    unfold generateScheduleProposals
    rw [h]
  · intro f h
    unfold generateScheduleProposals
    rw [h]
  · intro h
    unfold generateScheduleProposals
    rw [h]
    have h8 : padHH (max 0 (9 - 1)) = "08" := by decide
    have h10 : padHH (min 23 (9 + 1)) = "10" := by decide
    simp only [List.map_cons, List.map_nil, h8, h10]
    decide

/-- Witness for `generateScheduleProposals_spec` on a concrete summary
whose `fastestHour` is 9. -/
theorem generateScheduleProposals_spec_witness :
    (generateScheduleProposals
        ⟨0, 0, 0, 0, ⟨⟨0, 0⟩, ⟨0, 0⟩, ⟨0, 0⟩⟩, ⟨⟨0, 0⟩, ⟨0, 0⟩, ⟨0, 0⟩⟩, ⟨0, 0, 0⟩,
          ⟨none, none, false⟩, ⟨[], some 9, none, none⟩, none⟩).map
        (fun p => (p.type, p.target))
      = [("shift_high_block", ⟨"08:00", "10:00"⟩)] :=
  (generateScheduleProposals_spec
      ⟨0, 0, 0, 0, ⟨⟨0, 0⟩, ⟨0, 0⟩, ⟨0, 0⟩⟩, ⟨⟨0, 0⟩, ⟨0, 0⟩, ⟨0, 0⟩⟩, ⟨0, 0, 0⟩,
        ⟨none, none, false⟩, ⟨[], some 9, none, none⟩, none⟩).2.2 rfl

/-- `generateRuleBasedSuggestions` from part_002, push by push; the
`Object.entries(...).sort(...)[0]` picks are modelled with the stable
`jsSort` over the entry lists in declaration order.  Apostrophes in the
source's message text are rendered typographically. -/
def generateRuleBasedSuggestions (userData : UserDataSummary) : List String :=
  let s1 : List String :=
    if 4 * 3600 < userData.totalFocusTime then
      ["You’ve completed 4+ hours of deep work today. Consider taking a longer break to recharge."]
    else if userData.totalFocusTime < 2 * 3600 ∧ 0 < userData.totalSessions then
      ["Try extending your focus sessions to build deeper concentration habits."]
    else []
  let energyEntries : List (String × CountAvg) :=
    [("high", userData.energyLevelPatterns.high),
     ("medium", userData.energyLevelPatterns.medium),
     ("low", userData.energyLevelPatterns.low)]
  let mostProductiveEnergy :=
    (jsSort (fun a b => decide (b.2.avgDuration ≤ a.2.avgDuration)) energyEntries).head?
  let s2 : List String :=
    match mostProductiveEnergy with
    | some e =>
      if 0 < e.2.count then
        ["Your " ++ e.1 ++ " energy sessions are most productive. Schedule important tasks during these times."]
      else []
    | none => []
  let timeEntries : List (String × SessAvg) :=
    [("morning", userData.timeOfDayPatterns.morning),
     ("afternoon", userData.timeOfDayPatterns.afternoon),
     ("night", userData.timeOfDayPatterns.night)]
  let mostProductiveTime :=
    (jsSort (fun a b => decide (b.2.avgDuration ≤ a.2.avgDuration)) timeEntries).head?
  let s3 : List String :=
    match mostProductiveTime with
    | some e =>
      if 0 < e.2.sessions then
        ["Your " ++ e.1 ++ " sessions show the best focus. Consider making this your primary work time."]
      else []
    | none => []
  let s4 : List String :=
    if 80 < userData.completionRate then
      ["Excellent task completion rate! Your consistency is building strong productivity habits."]
    else if userData.completionRate < 50 then
      ["Try breaking tasks into smaller chunks to improve completion rates and build momentum."]
    else []
  let s5 : List String :=
    if userData.scheduleData.hasSchedule then []
    else
      ["Set up a consistent sleep and wake schedule to optimize your energy levels throughout the day."]
  let s6 : List String :=
    if userData.recentTrends.lastWeekSessions < 3 then
      ["Increase session frequency to build stronger focus habits. Aim for at least 3 sessions per week."]
    else []
  let suggestions := s1 ++ s2 ++ s3 ++ s4 ++ s5 ++ s6
  (if suggestions.isEmpty then
    ["Start tracking your energy levels throughout the day to identify your most productive times.",
     "Try the Pomodoro technique: 25 minutes of focused work followed by a 5-minute break.",
     "Schedule your most challenging tasks during your highest energy periods."]
  else suggestions).take 6

/-- `generateRuleBasedMotivation` from part_002. -/
def generateRuleBasedMotivation (userData : UserDataSummary) : String :=
  match userData.completionVelocity.fastestHour with
  | some f => "Lean into your " ++ renderNatStr f ++ ":00 momentum—keep the streak alive."
  | none =>
    if 0 < userData.recentTrends.lastWeekSessions then
      "Consistency compounds—today’s focus moves the needle."
    else "Start small, finish strong."

/-- The payload of a successful insights response. -/
structure InsightsData where
  suggestions : List String
  proposals : List Proposal
  motivation : String
deriving DecidableEq, Repr

/-- An HTTP-ish result of the insights `GET`: `ok` mirrors the JSON `ok`
flag of the 200 response. -/
structure ApiResult where
  ok : Bool
  data : InsightsData
deriving DecidableEq, Repr

/-- The inner try/catch of the insights `GET` route: `ai` is the joint
outcome of the two external OpenAI calls (suggestion list and motivation
line).  On success their output is used; on any failure the deterministic
rule-based fallbacks are, and the response is still the 200 success
shape — the outer 500 path only covers storage faults, before this
point. -/
def insightsGET (userDataSummary : UserDataSummary)
    (ai : Except Unit (List String × String)) : ApiResult :=
  match ai with
  | .ok (s, m) =>
    ⟨true, ⟨s, generateScheduleProposals userDataSummary, m⟩⟩
  | .error _ =>
    ⟨true, ⟨generateRuleBasedSuggestions userDataSummary,
            generateScheduleProposals userDataSummary,
            generateRuleBasedMotivation userDataSummary⟩⟩

/-- Taking the first six of a list that falls back to non-empty defaults
when empty always yields a non-empty list. -/
theorem take_six_with_defaults_ne_nil (L D : List String) (hD : D ≠ []) :
    (if L.isEmpty then D else L).take 6 ≠ [] := by
  by_cases h : L.isEmpty
  · rw [if_pos h]
    simp [List.take_eq_nil_iff, hD]
  · rw [if_neg h]
    rw [List.isEmpty_iff] at h
    simp [List.take_eq_nil_iff, h]

/-- The rule-based fallback never returns an empty suggestion list. -/
theorem generateRuleBasedSuggestions_ne_nil (ud : UserDataSummary) :
    generateRuleBasedSuggestions ud ≠ [] := by
  unfold generateRuleBasedSuggestions
  apply take_six_with_defaults_ne_nil
  decide

/-- The rule-based motivation line is never the empty string. -/
theorem generateRuleBasedMotivation_ne_empty (ud : UserDataSummary) :
    generateRuleBasedMotivation ud ≠ "" := by
  unfold generateRuleBasedMotivation
  cases ud.completionVelocity.fastestHour with
  | some f =>
    intro h
    have hlen := congrArg String.length h
    rw [String.length_append, String.length_append] at hlen
    have h15 : ("Lean into your " : String).length = 15 := by decide
    rw [h15] at hlen
    simp at hlen
  | none =>
    split_ifs <;> decide

/-- C8: when the external narrative-generation call fails, the insights
route still answers with the success shape: the deterministic rule-based
suggestions (always a non-empty list), a non-empty rule-based motivation
line, and exactly the same proposals as the AI path produces from the
same analyzer output. -/
theorem insightsGET_fallback_sound (ud : UserDataSummary) :
    (insightsGET ud (Except.error ())).ok = true ∧
    (insightsGET ud (Except.error ())).data.suggestions = generateRuleBasedSuggestions ud ∧
    (insightsGET ud (Except.error ())).data.suggestions ≠ [] ∧
    (insightsGET ud (Except.error ())).data.motivation ≠ "" ∧
    (insightsGET ud (Except.error ())).data.proposals = generateScheduleProposals ud ∧
    ∀ s m, (insightsGET ud (Except.ok (s, m))).data.proposals
      = (insightsGET ud (Except.error ())).data.proposals := by
  refine ⟨rfl, rfl, ?_, ?_, rfl, fun s m => rfl⟩
  · exact generateRuleBasedSuggestions_ne_nil ud
  · exact generateRuleBasedMotivation_ne_empty ud

/-! ## Capacity validation claims (part_006) and the tasks PATCH route
(src/unnamed/part_003 with src/lib/db/crud.ts) -/

/-- Appending one task adds its duration to the running total. -/
theorem totalDuration_append (tasks : List UiTask) (t : UiTask) :
    totalDuration (tasks ++ [t]) = totalDuration tasks + t.duration := by
  unfold totalDuration
  rw [List.foldl_append]
  rfl

/-- C7 counterexample: with a 10-minute block already holding 20 minutes
of tasks, adding a 5-minute task makes the candidate total 25 > 10, so
the claim demands a reported excess of 25 − 10 = 15; the quick-add check
rejects but reports `5 − max(0, 10 − 20) = 5` instead. -/
theorem quickAddExcess_not_candidate_excess :
    getBlockDuration ("09:00") ("09:10") = 10 ∧
    totalDuration [⟨"overflow", 20⟩, ⟨"extra", 5⟩] = 25 ∧
    quickAddExcess [⟨"overflow", 20⟩] ("09:00") ("09:10") 5 = some 5 ∧
    (5 : Int) ≠ 25 - 10 := by
  decide

/-- C7 amended: the Schedule Validator always rejects a task set whose
total exceeds the block duration (the builder popup carries no figure),
and the excess-minutes figure reported by the quick-add duration check
equals `sum − blockDuration` exactly whenever the pre-existing tasks
alone still fit the block; when the block is already over-full the
reported figure is the new task's whole duration instead. -/
theorem validateTasks_capacity_spec :
    (∀ (tasks : List UiTask) (startTime endTime : String),
      getBlockDuration startTime endTime < (totalDuration tasks : Int) →
      validateTasks tasks startTime endTime = false) ∧
    (∀ (tasks : List UiTask) (startTime endTime : String) (v : Nat),
      (totalDuration tasks : Int) ≤ getBlockDuration startTime endTime →
      getBlockDuration startTime endTime < (totalDuration tasks : Int) + v →
      quickAddExcess tasks startTime endTime v
        = some (((totalDuration tasks : Int) + v) - getBlockDuration startTime endTime)) := by
  constructor
  · intro tasks startTime endTime h
    unfold validateTasks
    simp [h]
  · intro tasks startTime endTime v hfit hover
    unfold quickAddExcess getCurrentBlockRemaining
    dsimp only
    rw [if_pos (by omega)]
    congr 1
    omega

/-- Witness for `validateTasks_capacity_spec`: a 20-minute block
(09:00–09:20) rejects a 25-minute task set, and quick-adding 10 minutes
onto 15 existing minutes reports excess (15 + 10) − 20 = 5. -/
theorem validateTasks_capacity_spec_witness :
    validateTasks [⟨"deep work", 25⟩] ("09:00") ("09:20") = false ∧
    quickAddExcess [⟨"deep work", 15⟩] ("09:00") ("09:20") 10
      = some (((totalDuration [⟨"deep work", 15⟩] : Int) + 10)
          - getBlockDuration ("09:00") ("09:20")) :=
  ⟨validateTasks_capacity_spec.1 [⟨"deep work", 25⟩] ("09:00") ("09:20") (by decide),
   validateTasks_capacity_spec.2 [⟨"deep work", 15⟩] ("09:00") ("09:20") 10
     (by decide) (by decide)⟩

/-- A task row of the `tasks` table (src/lib/db/types.ts shape, reduced
to the fields the capacity invariant concerns). -/
structure DbTask where
  id : Nat
  session_id : Nat
  name : String
  duration_minutes : Nat
  status : String
deriving DecidableEq, Repr

/-- The JSON body of a task `PATCH`
(`Partial Pick of name / description / duration_minutes / status`, plus `id`). -/
structure TaskUpdateBody where
  id : Option Nat
  name : Option String
  duration_minutes : Option Nat
  status : Option String
deriving DecidableEq, Repr

/-- `updateTask` from src/lib/db/crud.ts: a plain
`update(input).eq('id', id)` — the provided fields overwrite the matching
row, with no capacity check of any kind. -/
def updateTask (db : List DbTask) (id : Nat) (input : TaskUpdateBody) : List DbTask :=
  db.map (fun t =>
    if t.id = id then
      { t with name := input.name.getD t.name
               duration_minutes := input.duration_minutes.getD t.duration_minutes
               status := input.status.getD t.status }
    else t)

/-- The `PATCH` handler of the tasks route (src/unnamed/part_003):
400 without an `id`, otherwise commit `updateTask` and answer 200; the
result is the HTTP status together with the persisted table. -/
def tasksPATCH (db : List DbTask) (body : TaskUpdateBody) : Nat × List DbTask :=
  match body.id with
  | none => (400, db)
  | some id => (200, updateTask db id body)

/-- Summed `duration_minutes` of a session's tasks (the sibling total the
capacity invariant compares against the owning block's duration). -/
def sessionTaskMinutes (db : List DbTask) (session_id : Nat) : Nat :=
  ((db.filter (fun t => t.session_id = session_id)).map (·.duration_minutes)).sum

/-- C9, evaluated at the failing input: session 7's block runs
09:00–10:00 (60 minutes) and holds tasks of 50 and 5 minutes; a `PATCH`
raising the second task to 100 minutes makes the siblings sum to
150 > 60, yet the handler returns 200 and persists the update — no
capacity re-check, no 400-class error, no excess figure, contradicting
the claimed (and spec-mandated) behaviour. -/
theorem tasksPATCH_persists_capacity_violation :
    getBlockDuration ("09:00") ("10:00") = 60 ∧
    (tasksPATCH [⟨1, 7, "draft", 50, "active"⟩, ⟨2, 7, "review", 5, "active"⟩]
        ⟨some 2, none, some 100, none⟩).1 = 200 ∧
    (tasksPATCH [⟨1, 7, "draft", 50, "active"⟩, ⟨2, 7, "review", 5, "active"⟩]
        ⟨some 2, none, some 100, none⟩).2
      = [⟨1, 7, "draft", 50, "active"⟩, ⟨2, 7, "review", 100, "active"⟩] ∧
    sessionTaskMinutes
        (tasksPATCH [⟨1, 7, "draft", 50, "active"⟩, ⟨2, 7, "review", 5, "active"⟩]
          ⟨some 2, none, some 100, none⟩).2 7 = 150 ∧
    60 < 150 := by
  decide
